import Mathlib

/-!
# skillswap service worker (`build/v10/sw.js`)

A shallow embedding of the request-routing and caching part of the service
worker: the `fetch` listener, the two strategies `cacheFirst` and
`networkFirst`, and the `activate` listener's sweep over stale caches.

Platform objects are modelled as plain data:

* `CacheStorage` (the global `caches`) is the list of named caches in creation
  order, each cache a list of (request, response) entries;
* the network is a function from a request to the way `fetch(request)` settles;
* a promise is represented by the way it settles.

A cache entry is a pair of request and response, matched as the Cache
interface does (method, URL, and the headers the response names in `Vary`).
`cache.put` is not awaited in the source: when the platform refuses
the pair (`putAccepts`) its promise rejects unobserved and nothing is stored,
otherwise the model takes the write as done when the strategy's promise
settles; a failure of the storage itself (quota) is not modelled.  `fetches`
counts the calls of `fetch`.
-/

namespace SkillSwap

/-! ## Constants (sw.js lines 1-20) -/

def CACHE_NAME : String := "skillswap-v1.0.0"
def STATIC_CACHE : String := "skillswap-static-v1.0.0"
def DYNAMIC_CACHE : String := "skillswap-dynamic-v1.0.0"

/-- Assets to cache on install (the duplicate entry is in the source). -/
def STATIC_ASSETS : List String :=
  ["/", "/index.html", "/manifest.json", "/images/icon.jpg", "/images/icon.jpg"]

/-- The literal text each regular expression of `API_CACHE_PATTERNS` searches
for.  The three patterns `/\/api\/skills/`, `/\/api\/users/` and
`/\/api\/notifications/` hold no metacharacter, anchor or flag, so
`pattern.test(s)` is true exactly when `s` contains the text. -/
def API_CACHE_PATTERNS : List String :=
  ["/api/skills", "/api/users", "/api/notifications"]

/-! ## Strings -/

/-- Search of `pat` inside `s`, at any position. -/
def includesChars (pat : List Char) : List Char → Bool
  | [] => pat.isEmpty
  | c :: cs => pat.isPrefixOf (c :: cs) || includesChars pat cs

/-- `s.includes(pat)` of JavaScript. -/
def includes (s pat : String) : Bool := includesChars pat.toList s.toList

/-- `s.endsWith(pat)` of JavaScript. -/
def endsWith (s pat : String) : Bool := pat.toList.isSuffixOf s.toList

/-- `pattern.test(s)` for a pattern of `API_CACHE_PATTERNS`. -/
def regexTest (pattern s : String) : Bool := includes s pattern

/-! ## Requests and responses -/

/-- A parsed URL, `new URL(request.url)`, without its fragment. -/
structure URL where
  origin : String
  pathname : String
  search : String
  deriving DecidableEq, Repr

/-- The fields of a `Request` the worker and the cache read. -/
structure Request where
  method : String
  url : URL
  destination : String
  headers : List (String × String)
  deriving DecidableEq, Repr

structure Response where
  status : Nat
  statusText : String
  headers : List (String × String)
  body : String
  deriving DecidableEq, Repr

/-- A header name in lower case: names are compared without regard to case. -/
def lowerName (name : List Char) : List Char := name.map Char.toLower

/-- The values of a list put together with a comma and a space between them. -/
def joinValues : List (List Char) → List Char
  | [] => []
  | [v] => v
  | v :: w :: rest => v ++ [',', ' '] ++ joinValues (w :: rest)

/-- The combined value of the headers called `name`: `none` when there is no
such header. -/
def combinedValue (headers : List (String × String)) (name : List Char) : Option (List Char) :=
  match (headers.filter (fun h => lowerName h.1.toList == lowerName name)).map
      (fun h => h.2.toList) with
  | [] => none
  | v :: vs => some (joinValues (v :: vs))

/-- `headers.get(name)`, `none` standing for `null`. -/
def headersGet (headers : List (String × String)) (name : String) : Option String :=
  (combinedValue headers name.toList).map String.mk

/-- `request.headers.get('accept')`. -/
def Request.accept (request : Request) : Option String := headersGet request.headers "accept"

/-- `response.ok`: the status is in the range 200-299. -/
def Response.ok (r : Response) : Bool := decide (200 ≤ r.status) && decide (r.status ≤ 299)

/-- `new Response(body, { status, statusText })` for a string body, which
gives the response its content type. -/
def newResponse (body : String) (status : Nat) (statusText : String) : Response :=
  { status := status, statusText := statusText,
    headers := [("content-type", "text/plain;charset=UTF-8")], body := body }

/-- `request.headers.get('accept')?.includes('text/html')`: `undefined` (falsy)
when the header is missing. -/
def acceptsHtml (request : Request) : Bool :=
  match request.accept with
  | none => false
  | some a => includes a "text/html"

/-! ## Cache storage -/

/-- The parts of a header value between commas. -/
def fieldValues : List Char → List (List Char)
  | [] => [[]]
  | c :: cs =>
    match fieldValues cs with
    | [] => [[]]
    | v :: vs => if c = ',' then [] :: v :: vs else (c :: v) :: vs

/-- Space or tab. -/
def isHttpSpace (c : Char) : Bool := c.toNat == 32 || c.toNat == 9

/-- A field value without the spaces and tabs around it. -/
def trimHttp (v : List Char) : List Char :=
  ((v.dropWhile isHttpSpace).reverse.dropWhile isHttpSpace).reverse

/-- The field values of the `Vary` headers of a response. -/
def varyFieldValues (r : Response) : List (List Char) :=
  match combinedValue r.headers "vary".toList with
  | none => []
  | some v => (fieldValues v).map trimHttp

/-- The response has a `Vary` header with the field value `*`. -/
def variesOnAll (r : Response) : Bool :=
  (varyFieldValues r).any (fun v => v == ['*'])

/-- The test of the Cache interface that a request matches a cached pair of
request and response: both are `GET` requests of the same URL and, for every
header the cached response names in `Vary`, the two requests carry the same
value; a `Vary` of `*` matches nothing. -/
def requestMatches (requestQuery : Request) (cached : Request × Response) : Bool :=
  requestQuery.method == "GET" && cached.1.method == "GET" && requestQuery.url == cached.1.url &&
    (varyFieldValues cached.2).all (fun v =>
      v != ['*'] && combinedValue cached.1.headers v == combinedValue requestQuery.headers v)

/-- One named cache: the pairs of request and response stored, oldest first. -/
structure Cache where
  name : String
  entries : List (Request × Response)
  deriving DecidableEq, Repr

/-- The global `caches`: all caches of the origin, in creation order. -/
abbrev CacheStorage := List Cache

/-- `cache.match(request)` on one cache: the first pair the request matches. -/
def Cache.lookup (c : Cache) (request : Request) : Option Response :=
  (c.entries.find? (requestMatches request)).map (fun e => e.2)

/-- `cache.put(request, response)` on one cache, for a pair the platform
accepts: the pairs the request matches are replaced by the new pair. -/
def Cache.put (c : Cache) (request : Request) (r : Response) : Cache :=
  { c with entries := c.entries.filter (fun e => !requestMatches request e) ++ [(request, r)] }

/-- `caches.keys()`. -/
def cachesKeys (s : CacheStorage) : List String := s.map (fun c => c.name)

/-- `caches.match(request)`: every cache is searched, in creation order, and
the first match found is the result; `none` stands for `undefined`. -/
def cachesMatch : CacheStorage → Request → Option Response
  | [], _ => none
  | c :: rest, request =>
    match c.lookup request with
    | some r => some r
    | none => cachesMatch rest request

/-- `caches.open(name)`: the cache is created, empty and after the existing
ones, when it does not exist. -/
def cachesOpen : CacheStorage → String → CacheStorage
  | [], name => [{ name := name, entries := [] }]
  | c :: rest, name =>
    if c.name = name then c :: rest
    else c :: cachesOpen rest name

/-- A `cache.put(request, r)` that the platform accepts, on the cache `name`. -/
def cachesPut : CacheStorage → String → Request → Response → CacheStorage
  | [], _, _, _ => []
  | c :: rest, name, request, r =>
    if c.name = name then c.put request r :: rest
    else c :: cachesPut rest name request r

/-- The scheme of the URL is `http` or `https`. -/
def isHttpUrl (url : URL) : Bool :=
  "http://".toList.isPrefixOf url.origin.toList || "https://".toList.isPrefixOf url.origin.toList

/-- The pairs `cache.put(request, response)` stores.  For any other pair the
promise of `put` rejects with a `TypeError` and the cache is left as it was:
a URL that is not `http(s)`, a method other than `GET`, a response of status
206, a response with `Vary: *`. -/
def putAccepts (request : Request) (r : Response) : Bool :=
  isHttpUrl request.url && request.method == "GET" && r.status != 206 && !variesOnAll r

/-! ## The network and promises -/

/-- How `fetch(request)` settles: with a response (ok or not), or rejected. -/
inductive FetchResult where
  | response (r : Response)
  | failure
  deriving DecidableEq, Repr

/-- The network: what `fetch` does for each request. -/
abbrev Network := Request → FetchResult

/-- The JavaScript values the strategies handle. -/
inductive JsValue where
  | undefined
  | response (r : Response)
  | promise (settlesTo : JsValue)
  deriving Repr

/-- The value a cache lookup's promise settles to. -/
def JsValue.ofLookup : Option Response → JsValue
  | none => .undefined
  | some r => .response r

/-- Truthiness: `undefined` is falsy, every object (a `Response`, a promise,
whatever it settles to) is truthy. -/
def JsValue.truthy : JsValue → Bool
  | .undefined => false
  | .response _ => true
  | .promise _ => true

/-- The operator `a || b`. -/
def JsValue.or (a b : JsValue) : JsValue := if a.truthy then a else b

/-- What the promise of an `async` function settles to when the function
returns `v`: a returned promise is followed; `none` stands for `undefined`. -/
def JsValue.settle : JsValue → Option Response
  | .undefined => none
  | .response r => some r
  | .promise v => v.settle

/-- What a strategy call has done when its promise settles. -/
structure Outcome where
  response : Option Response
  storage : CacheStorage
  fetches : Nat
  deriving DecidableEq, Repr

/-! ## The strategies (sw.js lines 92-138) -/

/-- The two statements `const cache = await caches.open(DYNAMIC_CACHE);` and
`cache.put(request, networkResponse.clone());` of both strategies: the dynamic
cache is opened, and the copy is stored when `put` accepts it. -/
def storeCopy (s : CacheStorage) (request : Request) (networkResponse : Response) :
    CacheStorage :=
  if putAccepts request networkResponse then
    cachesPut (cachesOpen s DYNAMIC_CACHE) DYNAMIC_CACHE request networkResponse
  else
    cachesOpen s DYNAMIC_CACHE

/-- Cache first strategy. -/
def cacheFirst (net : Network) (s : CacheStorage) (request : Request) : Outcome :=
  match cachesMatch s request with
  | some cachedResponse => { response := some cachedResponse, storage := s, fetches := 0 }
  | none =>
    match net request with
    | .response networkResponse =>
      if networkResponse.ok then
        { response := some networkResponse,
          storage := storeCopy s request networkResponse,
          fetches := 1 }
      else
        { response := some networkResponse, storage := s, fetches := 1 }
    | .failure =>
      { response := some (newResponse "Offline content not available" 503 "Service Unavailable"),
        storage := s, fetches := 1 }

/-- The request of `caches.match('/offline.html')`: a `GET` without headers of
its own, the path resolved against the worker's own origin `location`. -/
def offlineRequest (location : String) : Request :=
  { method := "GET", url := { origin := location, pathname := "/offline.html", search := "" },
    destination := "", headers := [] }

/-- Network first strategy; `location` is the worker's origin. -/
def networkFirst (location : String) (net : Network) (s : CacheStorage) (request : Request) :
    Outcome :=
  match net request with
  | .response networkResponse =>
    if networkResponse.ok then
      { response := some networkResponse,
        storage := storeCopy s request networkResponse,
        fetches := 1 }
    else
      { response := some networkResponse, storage := s, fetches := 1 }
  | .failure =>
    match cachesMatch s request with
    | some cachedResponse => { response := some cachedResponse, storage := s, fetches := 1 }
    | none =>
      if acceptsHtml request then
        { response :=
            (JsValue.or (.promise (.ofLookup (cachesMatch s (offlineRequest location))))
              (.response (newResponse "Offline" 503 ""))).settle,
          storage := s, fetches := 1 }
      else
        { response := some (newResponse "Network error" 503 ""), storage := s, fetches := 1 }

/-! ## The fetch listener (sw.js lines 62-90) -/

inductive Strategy where
  | cacheFirst
  | networkFirst
  deriving DecidableEq, Repr

/-- The branch the fetch listener takes: the strategy whose promise goes to
`event.respondWith`, or `none` when `respondWith` is not called. -/
def fetchStrategy (request : Request) : Option Strategy :=
  if request.method = "GET" then
    if STATIC_ASSETS.any (fun asset => endsWith request.url.pathname asset) then
      some .cacheFirst
    else if API_CACHE_PATTERNS.any (fun pattern => regexTest pattern request.url.pathname) then
      some .networkFirst
    else if request.destination = "image" then
      some .cacheFirst
    else if acceptsHtml request then
      some .networkFirst
    else
      some .networkFirst
  else
    none

/-- Run of one strategy. -/
def Strategy.run (strategy : Strategy) (location : String) (net : Network) (s : CacheStorage)
    (request : Request) : Outcome :=
  match strategy with
  | .cacheFirst => SkillSwap.cacheFirst net s request
  | .networkFirst => SkillSwap.networkFirst location net s request

/-- What one `fetch` event has done: `respondWith` holds the strategy invoked
and what its promise settled to, or `none` when the listener declined. -/
structure FetchHandled where
  respondWith : Option (Strategy × Option Response)
  storage : CacheStorage
  fetches : Nat
  deriving DecidableEq, Repr

/-- The fetch listener. -/
def onFetch (location : String) (net : Network) (s : CacheStorage) (request : Request) :
    FetchHandled :=
  match fetchStrategy request with
  | some strategy =>
    let o := strategy.run location net s request
    { respondWith := some (strategy, o.response), storage := o.storage, fetches := o.fetches }
  | none => { respondWith := none, storage := s, fetches := 0 }

/-! ## The activate listener (sw.js lines 39-60) -/

/-- How a promise settles. -/
inductive Settled (α : Type) where
  | fulfilled (value : α)
  | rejected
  deriving DecidableEq, Repr

/-- `caches.delete(cacheName)`: `fails` tells for which names the platform's
deletion fails (the promise rejects and the cache stays); otherwise the cache
is removed and the promise fulfils with whether it existed. -/
def cachesDelete (fails : String → Bool) (s : CacheStorage) (cacheName : String) :
    Settled Bool × CacheStorage :=
  if fails cacheName then (.rejected, s)
  else (.fulfilled (s.any (fun c => c.name == cacheName)), s.filter (fun c => c.name != cacheName))

/-- The callback of `cacheNames.map(...)` applied to every name in turn: a
deletion is started for each name that is neither `STATIC_CACHE` nor
`DYNAMIC_CACHE`; the other names map to `undefined` (`none`). -/
def mapDeletions (fails : String → Bool) : List String → CacheStorage →
    List (Option (Settled Bool)) × CacheStorage
  | [], s => ([], s)
  | cacheName :: rest, s =>
    if cacheName ≠ STATIC_CACHE ∧ cacheName ≠ DYNAMIC_CACHE then
      let d := cachesDelete fails s cacheName
      let m := mapDeletions fails rest d.2
      (some d.1 :: m.1, m.2)
    else
      let m := mapDeletions fails rest s
      (none :: m.1, m.2)

/-- `Promise.all(values)`: rejected as soon as one of the promises rejects. -/
def promiseAll (values : List (Option (Settled Bool))) : Settled Unit :=
  if values.any (fun v => v == some .rejected) then .rejected else .fulfilled ()

/-- What the activate listener has done: the storage left, whether
`self.clients.claim()` was called, and how the promise given to
`event.waitUntil` settled. -/
structure Activated where
  storage : CacheStorage
  claimed : Bool
  waitUntil : Settled Unit
  deriving DecidableEq, Repr

/-- The activate listener. -/
def onActivate (fails : String → Bool) (s : CacheStorage) : Activated :=
  let m := mapDeletions fails (cachesKeys s) s
  match promiseAll m.1 with
  | .fulfilled _ => { storage := m.2, claimed := true, waitUntil := .fulfilled () }
  | .rejected => { storage := m.2, claimed := false, waitUntil := .rejected }

/-! ## The classifier as the specification words it -/

/-- The path ends with an entry of the static-asset list. -/
def HasStaticSuffix (path : String) : Prop :=
  ∃ asset ∈ STATIC_ASSETS, asset.toList <:+ path.toList

/-- Some API pattern occurs in the path. -/
def MatchesApi (path : String) : Prop :=
  ∃ pattern ∈ API_CACHE_PATTERNS, pattern.toList <:+: path.toList

/-- The accept header is present and mentions `text/html`. -/
def PrefersHtml (request : Request) : Prop :=
  ∃ a, request.accept = some a ∧ "text/html".toList <:+: a.toList

inductive StrategyClass where
  | StaticAsset
  | ApiResource
  | ImageAsset
  | HtmlDocument
  | Other
  deriving DecidableEq, Repr

instance (path : String) : Decidable (HasStaticSuffix path) := by
  unfold HasStaticSuffix; infer_instance

instance (path : String) : Decidable (MatchesApi path) := by
  unfold MatchesApi; infer_instance

instance (request : Request) : Decidable (PrefersHtml request) :=
  match h : request.accept with
  | none => isFalse (by rintro ⟨a, ha, _⟩; rw [h] at ha; cases ha)
  | some a =>
    if hi : "text/html".toList <:+: a.toList then isTrue ⟨a, h, hi⟩
    else isFalse (by rintro ⟨b, hb, hbi⟩; rw [h] at hb; cases hb; exact hi hbi)

/-- The classifier of the specification: the five rules in priority order,
first match wins. -/
def classify (request : Request) : StrategyClass :=
  if HasStaticSuffix request.url.pathname then .StaticAsset
  else if MatchesApi request.url.pathname then .ApiResource
  else if request.destination = "image" then .ImageAsset
  else if PrefersHtml request then .HtmlDocument
  else .Other

/-- The strategy mapping of the specification. -/
def StrategyClass.strategy : StrategyClass → Strategy
  | .StaticAsset => .cacheFirst
  | .ImageAsset => .cacheFirst
  | .ApiResource => .networkFirst
  | .HtmlDocument => .networkFirst
  | .Other => .networkFirst

/-! ## Predicates used in the statements -/

/-- A cache name the activate listener deletes: neither of the two current
names. -/
def isStale (cacheName : String) : Bool :=
  cacheName != STATIC_CACHE && cacheName != DYNAMIC_CACHE

/-- No cache listed before the first one named `DYNAMIC_CACHE` (before the end
of the list when there is none) holds an entry the request matches. -/
def noEarlierEntry (request : Request) : CacheStorage → Bool
  | [] => true
  | c :: rest =>
    c.name == DYNAMIC_CACHE || ((c.lookup request).isNone && noEarlierEntry request rest)

/-! ## Example data -/

/-- A `GET` request of the worker's own origin, with an accept header or with
no header. -/
def getRequest (pathname destination : String) (accept : Option String) : Request :=
  { method := "GET",
    url := { origin := "https://skillswap.example", pathname := pathname, search := "" },
    destination := destination,
    headers := match accept with
      | none => []
      | some a => [("accept", a)] }

/-- A response with a status and a body. -/
def plainResponse (status : Nat) (body : String) : Response :=
  { status := status, statusText := "", headers := [], body := body }

/-- A storage as the install step leaves it: the static cache holds the page
`/index.html`, the dynamic cache does not exist yet. -/
def installedStorage : CacheStorage :=
  [{ name := STATIC_CACHE,
     entries := [(getRequest "/index.html" "" none, plainResponse 200 "<html>home</html>")] }]

/-- A storage whose static cache holds an entry for the request of `/api/skills`. -/
def shadowingStorage : CacheStorage :=
  [{ name := STATIC_CACHE,
     entries := [(getRequest "/api/skills" "" none, plainResponse 200 "old skills")] }]

/-- A storage in which a cache created by a page before the install holds its
own entry for the request of `/index.html`. -/
def pageCacheStorage : CacheStorage :=
  [{ name := "app-shell",
     entries := [(getRequest "/index.html" "" none, plainResponse 404 "gone")] },
   { name := STATIC_CACHE,
     entries := [(getRequest "/index.html" "" none, plainResponse 200 "<html>home</html>")] }]

/-- A storage with two caches of an earlier deployment beside the current ones. -/
def deployedStorage : CacheStorage :=
  [{ name := CACHE_NAME, entries := [] },
   { name := "skillswap-static-v0.9.0", entries := [] },
   { name := "skillswap-dynamic-v0.9.0", entries := [] },
   { name := STATIC_CACHE, entries := [] },
   { name := DYNAMIC_CACHE, entries := [] }]

/-! ## Strings: the searches agree with suffix and infix on lists -/

theorem includesChars_iff (pat s : List Char) : includesChars pat s = true ↔ pat <:+: s := by
  induction s with
  | nil => simp [includesChars]
  | cons c cs ih =>
    rw [includesChars, Bool.or_eq_true, ih, List.infix_cons_iff, List.isPrefixOf_iff_prefix]

theorem endsWith_iff (s pat : String) : endsWith s pat = true ↔ pat.toList <:+ s.toList := by
  simp [endsWith]

theorem static_any_iff (path : String) :
    STATIC_ASSETS.any (fun asset => endsWith path asset) = true ↔ HasStaticSuffix path := by
  simp only [List.any_eq_true, endsWith_iff, HasStaticSuffix]

theorem api_any_iff (path : String) :
    API_CACHE_PATTERNS.any (fun pattern => regexTest pattern path) = true ↔ MatchesApi path := by
  simp only [List.any_eq_true, regexTest, includes, includesChars_iff, MatchesApi]

theorem acceptsHtml_iff (request : Request) : acceptsHtml request = true ↔ PrefersHtml request := by
  unfold acceptsHtml PrefersHtml
  cases h : request.accept with
  | none => simp
  | some a => simp [includes, includesChars_iff]

theorem fetchStrategy_eq_classify (request : Request) (hget : request.method = "GET") :
    fetchStrategy request = some (classify request).strategy := by
  unfold fetchStrategy classify
  rw [if_pos hget]
  by_cases h1 : HasStaticSuffix request.url.pathname
  · rw [if_pos ((static_any_iff _).2 h1), if_pos h1]; rfl
  · rw [if_neg (fun h => h1 ((static_any_iff _).1 h)), if_neg h1]
    by_cases h2 : MatchesApi request.url.pathname
    · rw [if_pos ((api_any_iff _).2 h2), if_pos h2]; rfl
    · rw [if_neg (fun h => h2 ((api_any_iff _).1 h)), if_neg h2]
      by_cases h3 : request.destination = "image"
      · rw [if_pos h3, if_pos h3]; rfl
      · rw [if_neg h3, if_neg h3]
        by_cases h4 : PrefersHtml request
        · rw [if_pos ((acceptsHtml_iff _).2 h4), if_pos h4]; rfl
        · rw [if_neg (fun h => h4 ((acceptsHtml_iff _).1 h)), if_neg h4]; rfl

theorem onFetch_of_strategy (location : String) (net : Network) (s : CacheStorage)
    (request : Request) (strategy : Strategy) (h : fetchStrategy request = some strategy) :
    onFetch location net s request =
      { respondWith := some (strategy, (strategy.run location net s request).response),
        storage := (strategy.run location net s request).storage,
        fetches := (strategy.run location net s request).fetches } := by
  simp [onFetch, h]

/-! ## The fetch listener -/

/-- C1: for a GET request the fetch listener takes the first matching rule of
(1) static-asset suffix, cacheFirst; (2) API pattern, networkFirst; (3) image
destination, cacheFirst; (4) HTML accept header, networkFirst; (5) otherwise
networkFirst. It agrees with the classifier of the specification, and
cacheFirst is chosen exactly when the path has a static-asset suffix, or no
API pattern matches and the destination is image; any other GET request gets
networkFirst. -/
theorem fetch_strategy_first_match (request : Request) (hget : request.method = "GET") :
    (HasStaticSuffix request.url.pathname → fetchStrategy request = some .cacheFirst) ∧
    (¬ HasStaticSuffix request.url.pathname → MatchesApi request.url.pathname →
      fetchStrategy request = some .networkFirst) ∧
    (¬ HasStaticSuffix request.url.pathname → ¬ MatchesApi request.url.pathname →
      request.destination = "image" → fetchStrategy request = some .cacheFirst) ∧
    (¬ HasStaticSuffix request.url.pathname → ¬ MatchesApi request.url.pathname →
      request.destination ≠ "image" → fetchStrategy request = some .networkFirst) ∧
    fetchStrategy request = some (classify request).strategy ∧
    (fetchStrategy request = some .cacheFirst ↔
      HasStaticSuffix request.url.pathname ∨
        (¬ MatchesApi request.url.pathname ∧ request.destination = "image")) ∧
    (fetchStrategy request ≠ some .cacheFirst → fetchStrategy request = some .networkFirst) ∧
    ∀ (location : String) (net : Network) (s : CacheStorage),
      (onFetch location net s request).respondWith =
        some ((classify request).strategy,
          ((classify request).strategy.run location net s request).response) := by
  have hc := fetchStrategy_eq_classify request hget
  refine ⟨?_, ?_, ?_, ?_, hc, ?_, ?_, ?_⟩
  · intro h1; rw [hc]; simp [classify, h1, StrategyClass.strategy]
  · intro h1 h2; rw [hc]; simp [classify, h1, h2, StrategyClass.strategy]
  · intro h1 h2 h3; rw [hc]; simp [classify, h1, h2, h3, StrategyClass.strategy]
  · intro h1 h2 h3; rw [hc]
    by_cases h4 : PrefersHtml request <;> simp [classify, h1, h2, h3, h4, StrategyClass.strategy]
  · rw [hc]
    by_cases h1 : HasStaticSuffix request.url.pathname
    · simp [classify, h1, StrategyClass.strategy]
    · by_cases h2 : MatchesApi request.url.pathname
      · simp [classify, h1, h2, StrategyClass.strategy]
      · by_cases h3 : request.destination = "image"
        · simp [classify, h1, h2, h3, StrategyClass.strategy]
        · by_cases h4 : PrefersHtml request <;>
            simp [classify, h1, h2, h3, h4, StrategyClass.strategy]
  · rw [hc]
    cases classify request <;> simp [StrategyClass.strategy]
  · intro location net s
    rw [onFetch_of_strategy location net s request _ hc]

/-- Witness of C1: the GET request of `/api/skills` with an image destination
matches an API pattern and no static asset, and goes to networkFirst. -/
theorem fetch_strategy_first_match_witness :
    ¬ HasStaticSuffix "/api/skills" ∧ MatchesApi "/api/skills" ∧
      fetchStrategy (getRequest "/api/skills" "image" none) = some .networkFirst :=
  ⟨by decide, by decide,
    (fetch_strategy_first_match (getRequest "/api/skills" "image" none) rfl).2.1
      (by decide) (by decide)⟩

/-- C9: for a request whose method is not GET the fetch listener never calls
respondWith: no strategy runs, no fetch is made and the cache storage is left
as it was. -/
theorem non_get_passes_through (location : String) (net : Network) (s : CacheStorage)
    (request : Request) (hmethod : request.method ≠ "GET") :
    fetchStrategy request = none ∧
    onFetch location net s request = { respondWith := none, storage := s, fetches := 0 } := by
  have h : fetchStrategy request = none := by simp [fetchStrategy, hmethod]
  exact ⟨h, by simp [onFetch, h]⟩

/-- Witness of C9: a POST of `/api/skills`, whatever the network answers. -/
theorem non_get_passes_through_witness :
    onFetch "https://skillswap.example" (fun _ => .response (plainResponse 200 "created")) []
        { getRequest "/api/skills" "" none with method := "POST" } =
      { respondWith := none, storage := [], fetches := 0 } :=
  (non_get_passes_through "https://skillswap.example"
    (fun _ => .response (plainResponse 200 "created")) []
    { getRequest "/api/skills" "" none with method := "POST" } (by decide)).2

/-- C10: every GET request whose path ends with a slash is handled by
cacheFirst, because the static-asset list holds the path of one slash and the
test is a suffix comparison; this is so also when an API pattern matches. -/
theorem trailing_slash_is_cache_first (request : Request) (hget : request.method = "GET")
    (hslash : "/".toList <:+ request.url.pathname.toList) :
    HasStaticSuffix request.url.pathname ∧ fetchStrategy request = some .cacheFirst := by
  have h1 : HasStaticSuffix request.url.pathname := ⟨"/", by simp [STATIC_ASSETS], hslash⟩
  refine ⟨h1, ?_⟩
  rw [fetchStrategy_eq_classify request hget]
  simp [classify, h1, StrategyClass.strategy]

/-- Witness of C10: the GET of `/api/skills/` matches an API pattern and is
served cache-first. -/
theorem trailing_slash_is_cache_first_witness :
    MatchesApi "/api/skills/" ∧
      fetchStrategy (getRequest "/api/skills/" "" none) = some .cacheFirst :=
  ⟨by decide,
    (trailing_slash_is_cache_first (getRequest "/api/skills/" "" none) rfl (by decide)).2⟩

/-! ## Cache storage lemmas -/

theorem cachesMatch_some_mem (s : CacheStorage) (key : Request) (r : Response)
    (h : cachesMatch s key = some r) : ∃ c ∈ s, c.lookup key = some r := by
  induction s with
  | nil => simp [cachesMatch] at h
  | cons c rest ih =>
    unfold cachesMatch at h
    cases hc : c.lookup key with
    | some r' =>
      rw [hc] at h
      exact ⟨c, List.mem_cons_self _ _, by rw [hc]; exact h⟩
    | none =>
      rw [hc] at h
      obtain ⟨c', hmem, hl⟩ := ih h
      exact ⟨c', List.mem_cons_of_mem _ hmem, hl⟩

theorem cachesMatch_of_mem (s : CacheStorage) (key : Request) (c : Cache) (e : Response)
    (hc : c ∈ s) (he : c.lookup key = some e) : ∃ r, cachesMatch s key = some r := by
  induction s with
  | nil => simp at hc
  | cons d rest ih =>
    unfold cachesMatch
    cases hd : d.lookup key with
    | some r' => exact ⟨r', rfl⟩
    | none =>
      rcases List.mem_cons.1 hc with h | h
      · subst h; rw [he] at hd; cases hd
      · exact ih h

theorem all_same_value (headers : List (String × String)) (vs : List (List Char))
    (h : vs.any (fun v => v == ['*']) = false) :
    vs.all (fun v => v != ['*'] && combinedValue headers v == combinedValue headers v) = true := by
  rw [List.all_eq_true]
  intro v hv
  have hne : (v == ['*']) = false := by
    rw [List.any_eq_false] at h
    simpa using h v hv
  simp [bne, hne]

theorem requestMatches_self (request : Request) (r : Response)
    (h : putAccepts request r = true) : requestMatches request (request, r) = true := by
  unfold putAccepts at h
  simp only [Bool.and_eq_true] at h
  obtain ⟨⟨⟨_, hget⟩, _⟩, hvary⟩ := h
  have hv : variesOnAll r = false := by simpa using hvary
  unfold requestMatches
  simp only [Bool.and_eq_true]
  exact ⟨⟨⟨hget, hget⟩, by simp⟩, all_same_value request.headers _ hv⟩

theorem Cache.lookup_put (c : Cache) (key : Request) (r : Response)
    (h : putAccepts key r = true) : (c.put key r).lookup key = some r := by
  have hnone : List.find? (requestMatches key)
      (c.entries.filter (fun e => !requestMatches key e)) = none := by
    rw [List.find?_eq_none]
    intro e he
    have := (List.mem_filter.1 he).2
    simpa using this
  simp [Cache.lookup, Cache.put, List.find?_append, hnone, requestMatches_self key r h]

theorem cachesMatch_append_first (pre post : CacheStorage) (c : Cache) (key : Request)
    (e : Response) (hpre : ∀ c' ∈ pre, c'.lookup key = none) (he : c.lookup key = some e) :
    cachesMatch (pre ++ c :: post) key = some e := by
  induction pre with
  | nil => simp [cachesMatch, he]
  | cons d rest ih =>
    have hd : d.lookup key = none := hpre d (List.mem_cons_self _ _)
    have hrest : ∀ c' ∈ rest, c'.lookup key = none :=
      fun c' hc' => hpre c' (List.mem_cons_of_mem _ hc')
    simp only [List.cons_append, cachesMatch, hd]
    exact ih hrest

theorem cachesMatch_stored (s : CacheStorage) (key : Request) (r : Response)
    (hput : putAccepts key r = true) (h : noEarlierEntry key s = true) :
    cachesMatch (cachesPut (cachesOpen s DYNAMIC_CACHE) DYNAMIC_CACHE key r) key = some r := by
  induction s with
  | nil => simp [cachesOpen, cachesPut, cachesMatch, Cache.lookup_put _ key r hput]
  | cons c rest ih =>
    by_cases hn : c.name = DYNAMIC_CACHE
    · simp [cachesOpen, cachesPut, hn, cachesMatch, Cache.lookup_put _ key r hput]
    · unfold noEarlierEntry at h
      have hn' : (c.name == DYNAMIC_CACHE) = false := by simpa using hn
      rw [hn', Bool.false_or, Bool.and_eq_true] at h
      have hl : c.lookup key = none := by simpa using h.1
      simp only [cachesOpen, cachesPut, hn, if_false, cachesMatch, hl]
      exact ih h.2

theorem cachesMatch_stored_some (s : CacheStorage) (name : String) (key : Request)
    (r : Response) (hput : putAccepts key r = true) :
    ∃ r', cachesMatch (cachesPut (cachesOpen s name) name key r) key = some r' := by
  induction s with
  | nil =>
    exact ⟨r, by simp [cachesOpen, cachesPut, cachesMatch, Cache.lookup_put _ key r hput]⟩
  | cons c rest ih =>
    by_cases hn : c.name = name
    · exact ⟨r, by simp [cachesOpen, cachesPut, hn, cachesMatch, Cache.lookup_put _ key r hput]⟩
    · simp only [cachesOpen, cachesPut, hn, if_false, cachesMatch]
      cases hl : c.lookup key with
      | some r' => exact ⟨r', rfl⟩
      | none => exact ih

theorem stored_dynamic_entry (s : CacheStorage) (name : String) (key : Request) (r : Response)
    (hput : putAccepts key r = true) :
    ∃ c ∈ cachesPut (cachesOpen s name) name key r, c.name = name ∧ c.lookup key = some r := by
  induction s with
  | nil =>
    refine ⟨Cache.put { name := name, entries := [] } key r, ?_, rfl,
      Cache.lookup_put _ key r hput⟩
    simp [cachesOpen, cachesPut]
  | cons c rest ih =>
    by_cases hn : c.name = name
    · refine ⟨c.put key r, ?_, by simpa [Cache.put] using hn, Cache.lookup_put c key r hput⟩
      simp [cachesOpen, cachesPut, hn]
    · obtain ⟨c', hmem, h1, h2⟩ := ih
      refine ⟨c', ?_, h1, h2⟩
      simp only [cachesOpen, cachesPut, hn, if_false]
      exact List.mem_cons_of_mem _ hmem

/-! ## The strategies -/

/-- C2, as stated, fails: `/index.html` is stored at install with status 200,
a cache created earlier holds another entry for the same request, and the
network is down; cacheFirst returns the entry of the earlier cache, of status
404, not the entry stored at install. -/
theorem static_hit_shadowed :
    HasStaticSuffix (getRequest "/index.html" "" none).url.pathname ∧
    (∃ c ∈ pageCacheStorage, c.name = STATIC_CACHE ∧
      c.lookup (getRequest "/index.html" "" none) =
        some (plainResponse 200 "<html>home</html>")) ∧
    cacheFirst (fun _ => .failure) pageCacheStorage (getRequest "/index.html" "" none) =
      { response := some (plainResponse 404 "gone"), storage := pageCacheStorage,
        fetches := 0 } ∧
    (plainResponse 404 "gone").status ≠ (plainResponse 200 "<html>home</html>").status := by
  refine ⟨by decide, ⟨_, List.mem_cons_of_mem _ (List.mem_cons_self _ _), rfl, by decide⟩,
    by decide, by decide⟩

/-- C2, amended: a GET request whose path has a static-asset suffix goes to
cacheFirst, and when some cache holds an entry the request matches, cacheFirst
answers with the first entry the request matches over all caches in creation
order, as it is stored, makes no fetch whatever the network does, and leaves
the storage as it was; the answer is the entry of a given cache when no cache
listed before that one holds an entry the request matches. -/
theorem static_hit_without_network (location : String) (net : Network) (s : CacheStorage)
    (request : Request) (c : Cache) (e : Response)
    (hget : request.method = "GET") (hstatic : HasStaticSuffix request.url.pathname)
    (hc : c ∈ s) (he : c.lookup request = some e) :
    fetchStrategy request = some .cacheFirst ∧
    ∃ r, cachesMatch s request = some r ∧
      (∃ c' ∈ s, c'.lookup request = some r) ∧
      (∀ pre post : CacheStorage, s = pre ++ c :: post →
        (∀ c' ∈ pre, c'.lookup request = none) → r = e) ∧
      cacheFirst net s request = { response := some r, storage := s, fetches := 0 } ∧
      onFetch location net s request =
        { respondWith := some (.cacheFirst, some r), storage := s, fetches := 0 } := by
  have hs : fetchStrategy request = some .cacheFirst := by
    rw [fetchStrategy_eq_classify request hget]
    simp [classify, hstatic, StrategyClass.strategy]
  obtain ⟨r, hr⟩ := cachesMatch_of_mem s request c e hc he
  obtain ⟨c', hmem, hl⟩ := cachesMatch_some_mem s request r hr
  have hcf : cacheFirst net s request = { response := some r, storage := s, fetches := 0 } := by
    simp [cacheFirst, hr]
  refine ⟨hs, r, hr, ⟨c', hmem, hl⟩, ?_, hcf, ?_⟩
  · intro pre post hsplit hpre
    have hfirst := cachesMatch_append_first pre post c request e hpre he
    rw [← hsplit, hr] at hfirst
    exact Option.some.inj hfirst
  · rw [onFetch_of_strategy location net s request _ hs]
    simp [Strategy.run, hcf]

/-- Witness of C2 amended: `/index.html` stored at install with status 200, no
other cache before the static one, the network down: the entry comes back and
no fetch is made. -/
theorem static_hit_without_network_witness :
    cacheFirst (fun _ => .failure) installedStorage (getRequest "/index.html" "" none) =
      { response := some (plainResponse 200 "<html>home</html>"), storage := installedStorage,
        fetches := 0 } := by
  obtain ⟨_, r, _, _, hr, hcf, _⟩ :=
    static_hit_without_network "https://skillswap.example" (fun _ => .failure) installedStorage
      (getRequest "/index.html" "" none)
      { name := STATIC_CACHE,
        entries := [(getRequest "/index.html" "" none,
          plainResponse 200 "<html>home</html>")] }
      (plainResponse 200 "<html>home</html>") rfl (by decide) (by simp [installedStorage])
      (by decide)
  rw [hcf, hr [] [] rfl (by simp)]

/-- C8: a non-ok network response is returned as it is and nothing is stored,
by networkFirst and by cacheFirst on a cache miss; whenever a strategy changes
the storage, the network has answered with an ok response. -/
theorem non_ok_response_not_stored (location : String) (net : Network) (s : CacheStorage)
    (request : Request) (r : Response)
    (hnet : net request = .response r) (hnok : r.ok = false) :
    networkFirst location net s request = { response := some r, storage := s, fetches := 1 } ∧
    (cachesMatch s request = none →
      cacheFirst net s request = { response := some r, storage := s, fetches := 1 }) ∧
    (cacheFirst net s request).storage = s ∧
    (∀ (net' : Network) (s' : CacheStorage) (request' : Request),
      (networkFirst location net' s' request').storage ≠ s' ∨
        (cacheFirst net' s' request').storage ≠ s' →
      ∃ r', net' request' = .response r' ∧ r'.ok = true) := by
  refine ⟨by simp [networkFirst, hnet, hnok], fun hmiss => by simp [cacheFirst, hmiss, hnet, hnok],
    ?_, ?_⟩
  · unfold cacheFirst
    cases hm : cachesMatch s request <;> simp [hnet, hnok]
  · intro net' s' request' h
    cases hn : net' request' with
    | failure =>
      exfalso
      rcases h with h | h
      · apply h
        unfold networkFirst
        rw [hn]
        cases hm : cachesMatch s' request' <;> simp
        split <;> rfl
      · apply h
        unfold cacheFirst
        rw [hn]
        cases hm : cachesMatch s' request' <;> simp
    | response r' =>
      refine ⟨r', rfl, ?_⟩
      by_contra hok
      have hok' : r'.ok = false := by simpa using hok
      rcases h with h | h
      · apply h
        simp [networkFirst, hn, hok']
      · apply h
        unfold cacheFirst
        rw [hn]
        cases hm : cachesMatch s' request' <;> simp [hok']

/-- Witness of C8: a 404 for `/api/skills` with an empty storage. -/
theorem non_ok_response_not_stored_witness :
    networkFirst "https://skillswap.example" (fun _ => .response (plainResponse 404 "missing")) []
        (getRequest "/api/skills" "" none) =
      { response := some (plainResponse 404 "missing"), storage := [], fetches := 1 } ∧
    cacheFirst (fun _ => .response (plainResponse 404 "missing")) []
        (getRequest "/api/skills" "" none) =
      { response := some (plainResponse 404 "missing"), storage := [], fetches := 1 } :=
  have h := non_ok_response_not_stored "https://skillswap.example"
    (fun _ => .response (plainResponse 404 "missing")) [] (getRequest "/api/skills" "" none)
    (plainResponse 404 "missing") rfl (by decide)
  ⟨h.1, h.2.1 rfl⟩

/-- C3, as stated, fails, in two ways.  With the static cache holding an older
entry for the request of `/api/skills`, networkFirst stores the ok response of
the network in the dynamic cache and returns it, and the second call, the
network failing, returns the older entry of the static cache, not the one just
stored.  And an ok response of status 206 is returned but not stored, `put`
refusing it, so that the second call ends in the synthetic 503. -/
theorem api_fallback_shadowed :
    classify (getRequest "/api/skills" "" none) = .ApiResource ∧
    (plainResponse 200 "new skills").ok = true ∧
    (networkFirst "https://skillswap.example"
      (fun _ => .response (plainResponse 200 "new skills")) shadowingStorage
      (getRequest "/api/skills" "" none)).response = some (plainResponse 200 "new skills") ∧
    (networkFirst "https://skillswap.example" (fun _ => .failure)
      (networkFirst "https://skillswap.example"
        (fun _ => .response (plainResponse 200 "new skills")) shadowingStorage
        (getRequest "/api/skills" "" none)).storage
      (getRequest "/api/skills" "" none)).response = some (plainResponse 200 "old skills") ∧
    plainResponse 200 "old skills" ≠ plainResponse 200 "new skills" ∧
    (plainResponse 206 "some skills").ok = true ∧
    networkFirst "https://skillswap.example"
      (fun _ => .response (plainResponse 206 "some skills")) installedStorage
      (getRequest "/api/skills" "" none) =
        { response := some (plainResponse 206 "some skills"),
          storage := installedStorage ++ [{ name := DYNAMIC_CACHE, entries := [] }],
          fetches := 1 } ∧
    (networkFirst "https://skillswap.example" (fun _ => .failure)
      (installedStorage ++ [{ name := DYNAMIC_CACHE, entries := [] }])
      (getRequest "/api/skills" "" none)).response =
        some (newResponse "Network error" 503 "") := by
  decide

/-- C3, amended: for a GET request classified ApiResource and an ok network
response r, the listener picks networkFirst, which returns r; when `put`
refuses r (status 206, `Vary: *`, a URL that is not http or https) nothing is
stored; otherwise r is stored in the dynamic cache under the request, where a
lookup finds r, and a second call with the network failing returns the first
entry the request matches over all caches in creation order, never an error
response, and that entry is r when no cache listed before the dynamic one
holds an entry the request matches. -/
theorem api_store_then_fallback (location : String) (net : Network) (s : CacheStorage)
    (request : Request) (r : Response)
    (hget : request.method = "GET") (hclass : classify request = .ApiResource)
    (hnet : net request = .response r) (hok : r.ok = true) :
    fetchStrategy request = some .networkFirst ∧
    (networkFirst location net s request).response = some r ∧
    (networkFirst location net s request).fetches = 1 ∧
    (putAccepts request r = false →
      (networkFirst location net s request).storage = cachesOpen s DYNAMIC_CACHE) ∧
    (putAccepts request r = true →
      (networkFirst location net s request).storage =
        cachesPut (cachesOpen s DYNAMIC_CACHE) DYNAMIC_CACHE request r ∧
      (∃ c ∈ (networkFirst location net s request).storage,
        c.name = DYNAMIC_CACHE ∧ c.lookup request = some r) ∧
      ∀ net' : Network, net' request = .failure →
        ∃ r', cachesMatch (networkFirst location net s request).storage request = some r' ∧
          networkFirst location net' (networkFirst location net s request).storage request =
            { response := some r', storage := (networkFirst location net s request).storage,
              fetches := 1 } ∧
          (noEarlierEntry request s = true → r' = r)) := by
  have hs : fetchStrategy request = some .networkFirst := by
    rw [fetchStrategy_eq_classify request hget, hclass]; rfl
  have h1 : networkFirst location net s request =
      { response := some r, storage := storeCopy s request r, fetches := 1 } := by
    simp [networkFirst, hnet, hok]
  refine ⟨hs, by rw [h1], by rw [h1], ?_, ?_⟩
  · intro hput
    rw [h1]
    simp [storeCopy, hput]
  · intro hput
    have hst : (networkFirst location net s request).storage =
        cachesPut (cachesOpen s DYNAMIC_CACHE) DYNAMIC_CACHE request r := by
      rw [h1]
      simp [storeCopy, hput]
    refine ⟨hst, ?_, ?_⟩
    · rw [hst]; exact stored_dynamic_entry s DYNAMIC_CACHE request r hput
    · intro net' hfail
      rw [hst]
      obtain ⟨r', hr'⟩ := cachesMatch_stored_some s DYNAMIC_CACHE request r hput
      refine ⟨r', hr', by simp [networkFirst, hfail, hr'], ?_⟩
      intro hearlier
      have := cachesMatch_stored s request r hput hearlier
      rw [hr'] at this
      exact Option.some.inj this

/-- Witness of C3 amended: `/api/skills` answered with 200 after install, then
the network down: the second call returns the response just stored. -/
theorem api_store_then_fallback_witness :
    networkFirst "https://skillswap.example" (fun _ => .failure)
        (networkFirst "https://skillswap.example"
          (fun _ => .response (plainResponse 200 "new skills")) installedStorage
          (getRequest "/api/skills" "" none)).storage
        (getRequest "/api/skills" "" none) =
      { response := some (plainResponse 200 "new skills"),
        storage := (networkFirst "https://skillswap.example"
          (fun _ => .response (plainResponse 200 "new skills")) installedStorage
          (getRequest "/api/skills" "" none)).storage,
        fetches := 1 } := by
  obtain ⟨r', _, h2, h3⟩ :=
    ((api_store_then_fallback "https://skillswap.example"
      (fun _ => .response (plainResponse 200 "new skills")) installedStorage
      (getRequest "/api/skills" "" none) (plainResponse 200 "new skills") rfl (by decide) rfl
      (by decide)).2.2.2.2 (by decide)).2.2 (fun _ => .failure) rfl
  rw [h2, h3 (by decide)]

/-- C4, what the code does: for a request that prefers HTML, the network
failing and no entry cached for the request, networkFirst settles to the
lookup of `/offline.html` itself: the cached document when there is one, and
no response at all (not a synthetic 503) when there is none, because the
promise of the lookup is truthy and the alternative of the disjunction is
never taken. -/
theorem html_offline_fallback (location : String) (net : Network) (s : CacheStorage)
    (request : Request) (hhtml : PrefersHtml request) (hfail : net request = .failure)
    (hmiss : cachesMatch s request = none) :
    networkFirst location net s request =
      { response := cachesMatch s (offlineRequest location), storage := s, fetches := 1 } ∧
    (∀ page, cachesMatch s (offlineRequest location) = some page →
      (networkFirst location net s request).response = some page) ∧
    (cachesMatch s (offlineRequest location) = none →
      (networkFirst location net s request).response = none) := by
  have h : networkFirst location net s request =
      { response := cachesMatch s (offlineRequest location), storage := s, fetches := 1 } := by
    have ha := (acceptsHtml_iff request).2 hhtml
    unfold networkFirst
    rw [hfail]
    simp only [hmiss, ha, if_true]
    cases cachesMatch s (offlineRequest location) <;> rfl
  refine ⟨h, ?_, ?_⟩
  · intro page hp; rw [h]; exact hp
  · intro hp; rw [h]; exact hp

/-- Witness of C4: `/totally/unknown` asked with an HTML accept header, the
network down and nothing cached: the strategy settles to no response. -/
theorem html_offline_fallback_witness :
    (networkFirst "https://skillswap.example" (fun _ => .failure) []
      (getRequest "/totally/unknown" "document" (some "text/html"))).response = none :=
  (html_offline_fallback "https://skillswap.example" (fun _ => .failure) []
    (getRequest "/totally/unknown" "document" (some "text/html")) (by decide) rfl rfl).2.2 rfl

/-- C5, the failing input: the GET of `/totally/unknown` with an HTML accept
header, the network down and an empty storage, is intercepted, goes to
networkFirst, and the promise given to respondWith settles to no response;
the same request without the accept header gets the synthetic 503. -/
theorem intercepted_get_without_response :
    (onFetch "https://skillswap.example" (fun _ => .failure) []
      (getRequest "/totally/unknown" "document" (some "text/html"))).respondWith =
        some (.networkFirst, none) ∧
    (onFetch "https://skillswap.example" (fun _ => .failure) []
      (getRequest "/totally/unknown" "document" none)).respondWith =
        some (.networkFirst, some (newResponse "Network error" 503 "")) := by
  decide

/-- The only way a strategy settles to no response: networkFirst, the network
failing, nothing cached for the request, an HTML accept header and no cached
`/offline.html`; cacheFirst always settles to a response. -/
theorem strategy_response_absent_iff (location : String) (net : Network) (s : CacheStorage)
    (request : Request) :
    (cacheFirst net s request).response ≠ none ∧
    ((networkFirst location net s request).response = none ↔
      net request = .failure ∧ cachesMatch s request = none ∧ acceptsHtml request = true ∧
        cachesMatch s (offlineRequest location) = none) := by
  constructor
  · unfold cacheFirst
    cases cachesMatch s request with
    | some r => simp
    | none =>
      cases net request with
      | failure => simp
      | response r => by_cases hok : r.ok = true <;> simp [hok]
  · unfold networkFirst
    cases hn : net request with
    | response r => by_cases hok : r.ok = true <;> simp [hok]
    | failure =>
      cases hm : cachesMatch s request with
      | some r => simp
      | none =>
        by_cases ha : acceptsHtml request = true
        · simp only [ha, if_true, true_and]
          cases cachesMatch s (offlineRequest location) <;>
            simp [JsValue.or, JsValue.truthy, JsValue.settle, JsValue.ofLookup]
        · simp [ha]

/-! ## The activate listener -/

theorem isStale_iff (n : String) : isStale n = true ↔ n ≠ STATIC_CACHE ∧ n ≠ DYNAMIC_CACHE := by
  simp [isStale]

theorem mapDeletions_storage (fails : String → Bool) (names : List String) (t : CacheStorage) :
    (mapDeletions fails names t).2 =
      t.filter (fun c => !(names.any (fun n => n == c.name && (isStale n && !fails n)))) := by
  induction names generalizing t with
  | nil => simp [mapDeletions]
  | cons n rest ih =>
    unfold mapDeletions
    by_cases hst : n ≠ STATIC_CACHE ∧ n ≠ DYNAMIC_CACHE
    · have hst' : isStale n = true := (isStale_iff n).2 hst
      rw [if_pos hst]
      simp only
      rw [ih]
      unfold cachesDelete
      by_cases hf : fails n = true
      · simp [hf]
      · have hf' : fails n = false := by simpa using hf
        simp only [hf', Bool.false_eq_true, if_false, List.filter_filter]
        apply List.filter_congr
        intro c _
        simp only [List.any_cons, hst', hf', Bool.not_false, Bool.and_true, Bool.not_or]
        cases h : (n == c.name) <;> cases h2 : (c.name != n) <;> simp_all
    · have hst' : isStale n = false := by
        cases h : isStale n
        · rfl
        · exact absurd ((isStale_iff n).1 h) hst
      rw [if_neg hst]
      simp only
      rw [ih]
      apply List.filter_congr
      intro c _
      simp [hst']

theorem mapDeletions_rejected (fails : String → Bool) (names : List String) (t : CacheStorage) :
    (mapDeletions fails names t).1.any (fun v => v == some .rejected) =
      names.any (fun n => isStale n && fails n) := by
  induction names generalizing t with
  | nil => simp [mapDeletions]
  | cons n rest ih =>
    unfold mapDeletions
    by_cases hst : n ≠ STATIC_CACHE ∧ n ≠ DYNAMIC_CACHE
    · have hst' : isStale n = true := (isStale_iff n).2 hst
      rw [if_pos hst]
      simp only [List.any_cons, ih, hst', Bool.true_and]
      unfold cachesDelete
      by_cases hf : fails n = true
      · simp [hf]
      · have hf' : fails n = false := by simpa using hf
        simp only [hf', Bool.false_eq_true, if_false, Bool.false_or]
        have hne : (some (Settled.fulfilled (List.any t fun c => c.name == n)) ==
            some Settled.rejected) = false := by
          rw [beq_eq_false_iff_ne]; intro h; cases h
        rw [hne, Bool.false_or]
    · have hst' : isStale n = false := by
        cases h : isStale n
        · rfl
        · exact absurd ((isStale_iff n).1 h) hst
      rw [if_neg hst]
      simp only [List.any_cons, ih, hst', Bool.false_and, Bool.false_or]
      have hne : ((none : Option (Settled Bool)) == some Settled.rejected) = false := by
        rw [beq_eq_false_iff_ne]; intro h; cases h
      rw [hne, Bool.false_or]

theorem keys_any_name (s : CacheStorage) (g : String → Bool) (c : Cache) (hc : c ∈ s) :
    (cachesKeys s).any (fun n => n == c.name && g n) = g c.name := by
  rw [Bool.eq_iff_iff, List.any_eq_true]
  constructor
  · rintro ⟨n, _, hn⟩
    rw [Bool.and_eq_true] at hn
    have : n = c.name := by simpa using hn.1
    rw [← this]; exact hn.2
  · intro h
    exact ⟨c.name, List.mem_map.2 ⟨c, hc, rfl⟩, by simp [h]⟩

theorem onActivate_storage (fails : String → Bool) (s : CacheStorage) :
    (onActivate fails s).storage =
      s.filter (fun c => c.name == STATIC_CACHE || c.name == DYNAMIC_CACHE || fails c.name) := by
  have h : (onActivate fails s).storage = (mapDeletions fails (cachesKeys s) s).2 := by
    unfold onActivate
    simp only
    split <;> rfl
  rw [h, mapDeletions_storage]
  apply List.filter_congr
  intro c hc
  rw [keys_any_name s (fun n => isStale n && !fails n) c hc]
  simp only [isStale, bne]
  cases (c.name == STATIC_CACHE) <;> cases (c.name == DYNAMIC_CACHE) <;> cases fails c.name <;>
    rfl

theorem onActivate_settled (fails : String → Bool) (s : CacheStorage) :
    ((cachesKeys s).any (fun n => isStale n && fails n) = false →
      (onActivate fails s).claimed = true ∧ (onActivate fails s).waitUntil = .fulfilled ()) ∧
    ((cachesKeys s).any (fun n => isStale n && fails n) = true →
      (onActivate fails s).claimed = false ∧ (onActivate fails s).waitUntil = .rejected) := by
  constructor <;> intro h <;>
    simp [onActivate, promiseAll, mapDeletions_rejected, h]

/-- C6: when no deletion fails, the activate listener leaves exactly the
caches named `STATIC_CACHE` or `DYNAMIC_CACHE`, with their entries: the names
afterwards are the prior names that are one of the two, `CACHE_NAME` is not
among them, and the listener claims the clients and reports completion. -/
theorem activate_keeps_current_only (fails : String → Bool) (s : CacheStorage)
    (hall : ∀ n ∈ cachesKeys s, n ≠ STATIC_CACHE → n ≠ DYNAMIC_CACHE → fails n = false) :
    (onActivate fails s).storage =
      s.filter (fun c => c.name == STATIC_CACHE || c.name == DYNAMIC_CACHE) ∧
    (∀ n, n ∈ cachesKeys (onActivate fails s).storage ↔
      n ∈ cachesKeys s ∧ (n = STATIC_CACHE ∨ n = DYNAMIC_CACHE)) ∧
    CACHE_NAME ∉ cachesKeys (onActivate fails s).storage ∧
    (onActivate fails s).claimed = true ∧ (onActivate fails s).waitUntil = .fulfilled () := by
  have hst : (onActivate fails s).storage =
      s.filter (fun c => c.name == STATIC_CACHE || c.name == DYNAMIC_CACHE) := by
    rw [onActivate_storage]
    apply List.filter_congr
    intro c hc
    by_cases h1 : c.name = STATIC_CACHE
    · simp [h1]
    · by_cases h2 : c.name = DYNAMIC_CACHE
      · simp [h2]
      · simp [h1, h2, hall c.name (List.mem_map.2 ⟨c, hc, rfl⟩) h1 h2]
  have hnames : ∀ n, n ∈ cachesKeys (onActivate fails s).storage ↔
      n ∈ cachesKeys s ∧ (n = STATIC_CACHE ∨ n = DYNAMIC_CACHE) := by
    intro n
    rw [hst]
    simp only [cachesKeys, List.mem_map, List.mem_filter, Bool.or_eq_true, beq_iff_eq]
    constructor
    · rintro ⟨c, ⟨hc, hn⟩, rfl⟩
      exact ⟨⟨c, hc, rfl⟩, hn⟩
    · rintro ⟨⟨c, hc, rfl⟩, hn⟩
      exact ⟨c, ⟨hc, hn⟩, rfl⟩
  have hany : (cachesKeys s).any (fun n => isStale n && fails n) = false := by
    rw [List.any_eq_false]
    intro n hn
    cases hs : isStale n with
    | false => simp
    | true =>
      have := (isStale_iff n).1 hs
      simp [hall n hn this.1 this.2]
  refine ⟨hst, hnames, ?_, (onActivate_settled fails s).1 hany⟩
  intro hmem
  rcases ((hnames CACHE_NAME).1 hmem).2 with h | h
  · exact absurd h (by decide)
  · exact absurd h (by decide)

/-- Witness of C6: the caches of an earlier deployment and the one named
`CACHE_NAME` go, the two current caches stay. -/
theorem activate_keeps_current_only_witness :
    cachesKeys (onActivate (fun _ => false) deployedStorage).storage =
      [STATIC_CACHE, DYNAMIC_CACHE] := by
  rw [(activate_keeps_current_only (fun _ => false) deployedStorage (fun _ _ _ _ => rfl)).1]
  decide

/-- C7, as stated, fails: with the deletion of the stale cache
`skillswap-static-v0.9.0` failing, the other stale caches are deleted, but the
listener does not claim the clients and the promise given to waitUntil
rejects. -/
theorem activate_failure_rejects :
    onActivate (fun n => n == "skillswap-static-v0.9.0") deployedStorage =
      { storage :=
          [{ name := "skillswap-static-v0.9.0", entries := [] },
           { name := STATIC_CACHE, entries := [] },
           { name := DYNAMIC_CACHE, entries := [] }],
        claimed := false,
        waitUntil := .rejected } := by
  decide

/-- C7, amended: when the deletion of a stale cache fails, the deletion of
every other stale cache is still carried out (the caches left are the two
current ones and those whose deletion failed), but the sweep as a whole is
rejected: the listener does not claim the clients and the promise given to
waitUntil rejects. -/
theorem activate_failure_others_deleted (fails : String → Bool) (s : CacheStorage) (n : String)
    (hn : n ∈ cachesKeys s) (hstatic : n ≠ STATIC_CACHE) (hdynamic : n ≠ DYNAMIC_CACHE)
    (hfail : fails n = true) :
    (onActivate fails s).storage =
      s.filter (fun c => c.name == STATIC_CACHE || c.name == DYNAMIC_CACHE || fails c.name) ∧
    (∀ m ∈ cachesKeys s, m ≠ STATIC_CACHE → m ≠ DYNAMIC_CACHE → fails m = false →
      m ∉ cachesKeys (onActivate fails s).storage) ∧
    (onActivate fails s).claimed = false ∧ (onActivate fails s).waitUntil = .rejected := by
  refine ⟨onActivate_storage fails s, ?_, ?_⟩
  · intro m _ h1 h2 h3 hmem
    rw [onActivate_storage] at hmem
    simp only [cachesKeys, List.mem_map, List.mem_filter] at hmem
    obtain ⟨c, ⟨_, hc⟩, rfl⟩ := hmem
    simp [h1, h2, h3] at hc
  · apply (onActivate_settled fails s).2
    rw [List.any_eq_true]
    exact ⟨n, hn, by simp [(isStale_iff n).2 ⟨hstatic, hdynamic⟩, hfail]⟩

/-- Witness of C7 amended: the deletion of one cache of the earlier deployment
fails; the other one and the cache named `CACHE_NAME` are gone afterwards. -/
theorem activate_failure_others_deleted_witness :
    cachesKeys (onActivate (fun n => n == "skillswap-static-v0.9.0") deployedStorage).storage =
      ["skillswap-static-v0.9.0", STATIC_CACHE, DYNAMIC_CACHE] ∧
    (onActivate (fun n => n == "skillswap-static-v0.9.0") deployedStorage).claimed = false := by
  have h := activate_failure_others_deleted (fun n => n == "skillswap-static-v0.9.0")
    deployedStorage "skillswap-static-v0.9.0" (by decide) (by decide) (by decide) (by decide)
  refine ⟨?_, h.2.2.1⟩
  rw [h.1]
  decide

end SkillSwap
